import Mathlib

/-!
Shallow embedding of the PyNeon stream-preprocessing core
(src/pyneon/stream.py together with the crop/interpolate functions of
pyneon/preprocess.py, which are not under src/ and are therefore modelled
from the specification).

A timestamped table is a list of (timestamp, value) pairs for one float
column; timestamps are integers (nanoseconds).  Python floats are modelled
as rationals, Python exceptions as an explicit error type.
-/

deriving instance DecidableEq for Except

namespace PyNeon

/-- Error kinds of the preprocessing core (spec section 7). -/
inductive StreamError where
  | emptyTable
  | zeroDuration
  | invalidRange
  | emptyResult
  | insufficientData
  | missingNominalRate
  | outOfRange
  deriving DecidableEq

/-- One float column of a timestamped table: rows (timestamp [ns], value). -/
abbrev Table := List (Int × ℚ)

/-- First timestamp key of a table (tables are non-empty and sorted, so this
is the minimum key). -/
def firstKey (tbl : Table) : Int := (tbl.map Prod.fst).headD 0

/-- Last timestamp key of a table (the maximum key for sorted tables). -/
def lastKey (tbl : Table) : Int := (tbl.map Prod.fst).getLastD 0

/-- Embedding of np.arange(start, stop, step) for a positive integer step:
start, start + step, ... strictly below stop. -/
def npArange (start stop step : Int) : List Int :=
  if 0 < step ∧ start < stop then
    (List.range (((stop - start).toNat + (step.toNat - 1)) / step.toNat)).map
      (fun i : Nat => start + (i : Int) * step)
  else []

/-- Embedding of `step_size = int(1e9 / self.sampling_freq_nominal)`
(src/pyneon/stream.py line 133): Python int() truncates, which for a
positive rate is floor division. -/
def autoStep (f : Nat) : Int := ((1000000000 / f : Nat) : Int)

/-- The two addressing units of crop (`by` in src/pyneon/stream.py):
absolute UTC timestamps in nanoseconds, or relative times in seconds. -/
inductive CropBy where
  | timestamp
  | time
  deriving DecidableEq

/-- Modelled from the spec: bound resolution of crop (pyneon/preprocess.py
is not under src/).  A relative time t is converted to an absolute
timestamp via first_ts + round(t * 1e9); an absolute bound is used as-is. -/
def resolveBound (firstTs : Int) (u : CropBy) (t : ℚ) : ℚ :=
  match u with
  | .timestamp => t
  | .time => ((firstTs + round (t * 1000000000) : Int) : ℚ)

/-- Modelled from the spec: the core of crop once both bounds are resolved
to absolute values.  Keeps the sub-table of rows whose timestamp key lies
in the closed interval [lo, hi] (row order preserved); fails with
InvalidRange if lo > hi and with EmptyResult if no row falls in range. -/
def cropResolved (tbl : Table) (lo hi : ℚ) : Except StreamError Table :=
  if hi < lo then .error .invalidRange
  else
    let res := tbl.filter (fun r => decide (lo ≤ (r.1 : ℚ)) && decide ((r.1 : ℚ) ≤ hi))
    if res.isEmpty then .error .emptyResult
    else .ok res

/-- Modelled from the spec: crop (pyneon/preprocess.py is not under src/).
Resolves unset bounds to the data bounds and relative-time bounds via
first_ts + round(t * 1e9), then keeps the rows in the closed interval. -/
def crop (tbl : Table) (tmin tmax : Option ℚ) (u : CropBy) : Except StreamError Table :=
  match tbl with
  | [] => .error .emptyTable
  | _ :: _ =>
    let lo : ℚ := match tmin with
      | none => (firstKey tbl : ℚ)
      | some t => resolveBound (firstKey tbl) u t
    let hi : ℚ := match tmax with
      | none => (lastKey tbl : ℚ)
      | some t => resolveBound (firstKey tbl) u t
    cropResolved tbl lo hi

/-- Modelled from the spec: linear interpolation of one float column
(pyneon/preprocess.py is not under src/).  Walks the sorted table to the
bracketing pair t0 <= t <= t1 and returns
v0 + (v1 - v0) * (t - t0) / (t1 - t0); a target outside the source range
fails with OutOfRange. -/
def interpLinear : Table → Int → Except StreamError ℚ
  | [], _ => .error .outOfRange
  | [(t0, v0)], t => if t = t0 then .ok v0 else .error .outOfRange
  | (t0, v0) :: (t1, v1) :: rest, t =>
    if t < t0 then .error .outOfRange
    else if t ≤ t1 then
      .ok (v0 + (v1 - v0) * (((t - t0 : Int) : ℚ) / ((t1 - t0 : Int) : ℚ)))
    else interpLinear ((t1, v1) :: rest) t

/-- One row of the resampled table per requested timestamp, in order; the
first failing timestamp aborts the whole evaluation. -/
def interpRows (tbl : Table) : List Int → Except StreamError Table
  | [] => .ok []
  | t :: ts =>
    match interpLinear tbl t with
    | .error e => .error e
    | .ok v =>
      match interpRows tbl ts with
      | .error e => .error e
      | .ok out => .ok ((t, v) :: out)

/-- Modelled from the spec: interpolate (pyneon/preprocess.py is not under
src/).  Evaluates the float-column interpolant at every new timestamp;
fails with InsufficientData if the source table has fewer than 2 rows. -/
def interpolate (newTs : List Int) (tbl : Table) : Except StreamError Table :=
  if tbl.length < 2 then .error .insufficientData
  else interpRows tbl newTs

/-- The derived attributes a stream recomputes from its owned table. -/
structure Attrs where
  timestamps : List Int
  first_ts : Int
  last_ts : Int
  times : List ℚ
  duration : ℚ
  sampling_freq_effective : ℚ
  deriving DecidableEq

/-- Embedding of NeonStream._get_attributes (src/pyneon/stream.py lines
51-62): first/last timestamp, per-row times in seconds, duration, and
effective rate = row count / duration.  An empty table fails at the
ts[0] access (IndexError); a zero duration fails at the row-count
division (ZeroDivisionError). -/
def computeAttrs (ts : List Int) : Except StreamError Attrs :=
  match ts with
  | [] => .error .emptyTable
  | t0 :: rest =>
    let first : Int := t0
    let last : Int := rest.getLastD t0
    let times : List ℚ := (t0 :: rest).map (fun t => ((t - first : Int) : ℚ) / 1000000000)
    let duration : ℚ := ((last - first : Int) : ℚ) / 1000000000
    if duration = 0 then .error .zeroDuration
    else .ok {
      timestamps := t0 :: rest
      first_ts := first
      last_ts := last
      times := times
      duration := duration
      sampling_freq_effective := (((t0 :: rest).length : ℕ) : ℚ) / duration }

/-- A stream: the owned table (timestamp index, one float column, and the
derived "time [s]" column that _get_attributes writes into the data),
the derived attributes, and the nominal sampling frequency. -/
structure StreamState where
  dataTs : List Int
  dataVal : List ℚ
  timeCol : List ℚ
  attrs : Attrs
  sampling_freq_nominal : Option Nat
  deriving DecidableEq

/-- Table replacement plus attribute recomputation: the step shared by
__init__, crop(inplace=True) and interpolate(inplace=True) in
src/pyneon/stream.py, which set self.data and call self._get_attributes();
_get_attributes also writes the derived "time [s]" column into the data. -/
def applyAttrs (ts : List Int) (vals : List ℚ) (freq : Option Nat) : Except StreamError StreamState :=
  match computeAttrs ts with
  | .error e => .error e
  | .ok a => .ok {
      dataTs := ts
      dataVal := vals
      timeCol := a.times
      attrs := a
      sampling_freq_nominal := freq }

/-- Embedding of CustomStream.__init__ (src/pyneon/stream.py lines
228-232): externally supplied data, sampling_freq_nominal = None. -/
def customStream (ts : List Int) (vals : List ℚ) : Except StreamError StreamState :=
  applyAttrs ts vals none

/-- Embedding of NeonStream.interpolate (src/pyneon/stream.py lines
131-137): with new_ts = None the grid is
np.arange(first_ts, last_ts, int(1e9 / sampling_freq_nominal)); with
sampling_freq_nominal = None that step computation fails (the spec's
MissingNominalRate).  Then delegates to the preprocessing interpolate. -/
def streamInterpolate (s : StreamState) (newTs : Option (List Int)) : Except StreamError Table :=
  match newTs with
  | some l => interpolate l (s.dataTs.zip s.dataVal)
  | none =>
    match s.sampling_freq_nominal with
    | none => .error .missingNominalRate
    | some f =>
      interpolate (npArange s.attrs.first_ts s.attrs.last_ts (autoStep f)) (s.dataTs.zip s.dataVal)

/-- Embedding of NeonStream.crop with inplace=True (src/pyneon/stream.py
lines 94-98): replace the owned table by the cropped one and recompute
the derived attributes. -/
def cropInplace (s : StreamState) (tmin tmax : Option ℚ) (u : CropBy) : Except StreamError StreamState :=
  match crop (s.dataTs.zip s.dataVal) tmin tmax u with
  | .error e => .error e
  | .ok tbl => applyAttrs (tbl.map Prod.fst) (tbl.map Prod.snd) s.sampling_freq_nominal

/-- Embedding of NeonStream.interpolate with inplace=True
(src/pyneon/stream.py lines 137-141). -/
def interpolateInplace (s : StreamState) (newTs : Option (List Int)) : Except StreamError StreamState :=
  match streamInterpolate s newTs with
  | .error e => .error e
  | .ok tbl => applyAttrs (tbl.map Prod.fst) (tbl.map Prod.snd) s.sampling_freq_nominal

/-- The two original rows immediately around a target: tbl contains a and b
as consecutive rows (the interpolation anchors). -/
def IsBracket (tbl : Table) (a b : Int × ℚ) : Prop :=
  ∃ l₁ l₂, tbl = l₁ ++ a :: b :: l₂

/-- A three-row example stream (timestamps 0, 10, 20 ns; float column
1, 3, 5) with the 200 Hz gaze nominal rate, as produced by applyAttrs. -/
def exampleStream : StreamState :=
  { dataTs := [0, 10, 20]
    dataVal := [1, 3, 5]
    timeCol := [0, 1 / 100000000, 1 / 50000000]
    attrs := {
      timestamps := [0, 10, 20]
      first_ts := 0
      last_ts := 20
      times := [0, 1 / 100000000, 1 / 50000000]
      duration := 1 / 50000000
      sampling_freq_effective := 150000000 }
    sampling_freq_nominal := some 200 }

/-- The stream owning the two-row table left by cropping exampleStream to
the timestamp interval [0, 10] in place. -/
def exampleStreamCropped : StreamState :=
  { dataTs := [0, 10]
    dataVal := [1, 3]
    timeCol := [0, 1 / 100000000]
    attrs := {
      timestamps := [0, 10]
      first_ts := 0
      last_ts := 10
      times := [0, 1 / 100000000]
      duration := 1 / 100000000
      sampling_freq_effective := 200000000 }
    sampling_freq_nominal := some 200 }

/-- The stream a CustomStream constructor yields from the externally
supplied two-row table (timestamps 0 and 10 ns, float column 1, 3): no
nominal sampling frequency. -/
def exampleCustom : StreamState :=
  { dataTs := [0, 10]
    dataVal := [1, 3]
    timeCol := [0, 1 / 100000000]
    attrs := {
      timestamps := [0, 10]
      first_ts := 0
      last_ts := 10
      times := [0, 1 / 100000000]
      duration := 1 / 100000000
      sampling_freq_effective := 200000000 }
    sampling_freq_nominal := none }

example : crop [(0, 1), (10, 3), (20, 5)] (some 100) (some 200) .timestamp =
    .error .emptyResult := by decide

example : crop [(0, 1), (10, 3), (20, 5)] (some 5) (some 15) .timestamp =
    .ok [(10, 3)] := by decide

example : npArange 0 20 7 = [0, 7, 14] := by decide

/-! ## Helper lemmas -/

theorem map_fst_filter (p : Int → Bool) :
    ∀ l : Table, (l.filter (fun r => p r.1)).map Prod.fst = (l.map Prod.fst).filter p := by
  intro l
  induction l with
  | nil => simp
  | cons a rest ih =>
    by_cases hp : p a.1 <;> simp [List.filter_cons, hp, ih]

theorem crop_some_some (tbl : Table) (hne : tbl ≠ []) (x y : ℚ) (u : CropBy) :
    crop tbl (some x) (some y) u =
      cropResolved tbl (resolveBound (firstKey tbl) u x) (resolveBound (firstKey tbl) u y) := by
  cases tbl with
  | nil => exact absurd rfl hne
  | cons a rest => simp [crop]

theorem cropResolved_ok (tbl : Table) (lo hi : ℚ) (res : Table)
    (h : cropResolved tbl lo hi = .ok res) :
    res = tbl.filter (fun r => decide (lo ≤ (r.1 : ℚ)) && decide ((r.1 : ℚ) ≤ hi)) := by
  by_cases hlt : hi < lo
  · simp [cropResolved, hlt] at h
  · by_cases hemp : (tbl.filter (fun r => decide (lo ≤ (r.1 : ℚ)) && decide ((r.1 : ℚ) ≤ hi))).isEmpty
    · simp [cropResolved, hlt, hemp] at h
    · simp [cropResolved, hlt, hemp] at h
      exact h.symm

/-- C2: for every non-empty sorted table and every resolved bound pair with
tmin <= tmax, the crop result's timestamp keys are exactly the subset of
the original keys k satisfying tmin <= k <= tmax (closed interval), in
their original order. -/
theorem crop_keys_spec (tbl : Table) (hne : tbl ≠ [])
    (hsorted : List.Chain' (fun p q => p.1 < q.1) tbl) (lo hi : ℚ) (hle : lo ≤ hi)
    (res : Table) (h : crop tbl (some lo) (some hi) .timestamp = .ok res) :
    res.map Prod.fst =
      (tbl.map Prod.fst).filter (fun k : Int => decide (lo ≤ (k : ℚ)) && decide ((k : ℚ) ≤ hi)) := by
  rw [crop_some_some tbl hne lo hi .timestamp] at h
  have hres := cropResolved_ok tbl (resolveBound (firstKey tbl) .timestamp lo)
    (resolveBound (firstKey tbl) .timestamp hi) res h
  simp only [resolveBound] at hres
  rw [hres]
  exact map_fst_filter (fun k : Int => decide (lo ≤ (k : ℚ)) && decide ((k : ℚ) ≤ hi)) tbl

theorem crop_keys_spec_witness :
    [(0, 1), (10, 3)].map Prod.fst =
      ([((0 : Int), (1 : ℚ)), (10, 3), (20, 5)].map Prod.fst).filter
        (fun k : Int => decide ((0 : ℚ) ≤ (k : ℚ)) && decide ((k : ℚ) ≤ (10 : ℚ))) :=
  crop_keys_spec [(0, 1), (10, 3), (20, 5)] (by decide)
    (by simp [List.chain'_cons]) 0 10 (by decide)
    [(0, 1), (10, 3)] (by decide)

/-- C5: crop fails with InvalidRange when the resolved tmin exceeds the
resolved tmax, and with EmptyResult (rather than returning an empty table)
when no row's timestamp lies in [tmin, tmax]; e.g. crop(tmin=100, tmax=200)
on a table whose maximum timestamp is 20 gives EmptyResult. -/
theorem crop_error_spec (tbl : Table) (hne : tbl ≠ []) (lo hi : ℚ) :
    (hi < lo → crop tbl (some lo) (some hi) .timestamp = .error .invalidRange) ∧
    (lo ≤ hi → (∀ p ∈ tbl, ¬(lo ≤ (p.1 : ℚ) ∧ (p.1 : ℚ) ≤ hi)) →
      crop tbl (some lo) (some hi) .timestamp = .error .emptyResult) ∧
    crop [(0, 1), (10, 3), (20, 5)] (some 100) (some 200) .timestamp = .error .emptyResult := by
  refine ⟨fun hlt => ?_, fun hle hno => ?_, by decide⟩
  · rw [crop_some_some tbl hne lo hi .timestamp]
    simp [cropResolved, resolveBound, hlt]
  · rw [crop_some_some tbl hne lo hi .timestamp]
    have hfil : tbl.filter (fun r => decide (lo ≤ (r.1 : ℚ)) && decide ((r.1 : ℚ) ≤ hi)) = [] := by
      rw [List.filter_eq_nil_iff]
      intro p hp
      simpa using hno p hp
    simp [cropResolved, resolveBound, not_lt.mpr hle, hfil]

theorem crop_error_spec_witness :
    crop [((0 : Int), (1 : ℚ)), (10, 3), (20, 5)] (some 30) (some 25) .timestamp =
      .error .invalidRange ∧
    crop [((0 : Int), (1 : ℚ)), (10, 3), (20, 5)] (some 100) (some 200) .timestamp =
      .error .emptyResult :=
  ⟨(crop_error_spec [(0, 1), (10, 3), (20, 5)] (by decide) 30 25).1 (by decide),
   (crop_error_spec [(0, 1), (10, 3), (20, 5)] (by decide) 100 200).2.1 (by decide) (by decide)⟩

theorem computeAttrs_cons (t0 : Int) (rest : List Int)
    (hz : ((rest.getLastD t0 - t0 : Int) : ℚ) / 1000000000 ≠ 0) :
    computeAttrs (t0 :: rest) = .ok {
      timestamps := t0 :: rest
      first_ts := t0
      last_ts := rest.getLastD t0
      times := (t0 :: rest).map (fun t => ((t - t0 : Int) : ℚ) / 1000000000)
      duration := ((rest.getLastD t0 - t0 : Int) : ℚ) / 1000000000
      sampling_freq_effective := (((t0 :: rest).length : ℕ) : ℚ) /
        (((rest.getLastD t0 - t0 : Int) : ℚ) / 1000000000) } := by
  simp only [computeAttrs]
  rw [if_neg hz]

theorem computeAttrs_zero_duration (t0 : Int) (rest : List Int)
    (hz : ((rest.getLastD t0 - t0 : Int) : ℚ) / 1000000000 = 0) :
    computeAttrs (t0 :: rest) = .error .zeroDuration := by
  simp only [computeAttrs]
  rw [if_pos hz]

/-- C7: crop in relative-time units resolves bounds via
first_ts + round(t * 1e9); the stream duration equals
(last_ts - first_ts) / 1e9; and crop with unit=time, tmin=0, tmax=duration
equals crop with unit=timestamp, tmin=first_ts, tmax=last_ts. -/
theorem crop_relative_equiv (tbl : Table) (hne : tbl ≠ [])
    (hsorted : List.Chain' (fun p q => p.1 < q.1) tbl) :
    (∀ (first : Int) (t : ℚ),
      resolveBound first .time t = ((first + round (t * 1000000000) : Int) : ℚ)) ∧
    (∀ (ts : List Int) (a : Attrs), computeAttrs ts = .ok a →
      a.duration = ((a.last_ts - a.first_ts : Int) : ℚ) / 1000000000) ∧
    crop tbl (some 0) (some (((lastKey tbl - firstKey tbl : Int) : ℚ) / 1000000000)) .time =
      crop tbl (some ((firstKey tbl : Int) : ℚ)) (some ((lastKey tbl : Int) : ℚ)) .timestamp := by
  refine ⟨fun first t => rfl, ?_, ?_⟩
  · intro ts a h
    cases ts with
    | nil => simp [computeAttrs] at h
    | cons t0 rest =>
      by_cases hz : ((rest.getLastD t0 - t0 : Int) : ℚ) / 1000000000 = 0
      · rw [computeAttrs_zero_duration t0 rest hz] at h
        simp at h
      · rw [computeAttrs_cons t0 rest hz] at h
        injection h with h2
        rw [← h2]
  · rw [crop_some_some tbl hne _ _ .time, crop_some_some tbl hne _ _ .timestamp]
    have h0 : resolveBound (firstKey tbl) .time 0 = ((firstKey tbl : Int) : ℚ) := by
      simp [resolveBound]
    have hd : resolveBound (firstKey tbl) .time
        (((lastKey tbl - firstKey tbl : Int) : ℚ) / 1000000000) = ((lastKey tbl : Int) : ℚ) := by
      simp only [resolveBound]
      rw [div_mul_cancel₀ _ (by norm_num : (1000000000 : ℚ) ≠ 0), round_intCast]
      push_cast
      ring
    rw [h0, hd]
    rfl

theorem crop_relative_equiv_witness :
    crop [((0 : Int), (1 : ℚ)), (10, 3), (20, 5)] (some 0)
        (some (((lastKey [((0 : Int), (1 : ℚ)), (10, 3), (20, 5)] -
          firstKey [((0 : Int), (1 : ℚ)), (10, 3), (20, 5)] : Int) : ℚ) / 1000000000)) .time =
      crop [((0 : Int), (1 : ℚ)), (10, 3), (20, 5)]
        (some ((firstKey [((0 : Int), (1 : ℚ)), (10, 3), (20, 5)] : Int) : ℚ))
        (some ((lastKey [((0 : Int), (1 : ℚ)), (10, 3), (20, 5)] : Int) : ℚ)) .timestamp :=
  (crop_relative_equiv [(0, 1), (10, 3), (20, 5)] (by decide) (by simp [List.chain'_cons])).2.2

theorem npArange_eq (start stop step : Int) (h1 : 0 < step) (h2 : start < stop) :
    npArange start stop step =
      (List.range (((stop - start).toNat + (step.toNat - 1)) / step.toNat)).map
        (fun i : Nat => start + (i : Int) * step) := by
  simp [npArange, h1, h2]

theorem npArange_getElem (start stop step : Int) (h1 : 0 < step) (h2 : start < stop)
    (i : Nat) (h : i < (npArange start stop step).length) :
    (npArange start stop step)[i] = start + (i : Int) * step := by
  revert h
  rw [npArange_eq start stop step h1 h2]
  intro h
  simp

theorem npArange_length (start stop step : Int) (h1 : 0 < step) (h2 : start < stop) :
    (npArange start stop step).length =
      ((stop - start).toNat + (step.toNat - 1)) / step.toNat := by
  rw [npArange_eq start stop step h1 h2]
  simp

/-- C1: with a configured nominal sampling frequency (200 Hz for gaze and
eye states, 110 Hz for IMU) and first_ts < last_ts, the auto-generated
interpolation grid starts exactly at first_ts, every consecutive
difference equals the fixed step round(1e9 / nominal_sampling_frequency),
and every element (in particular the last) is strictly below last_ts. -/
theorem auto_grid_spec (first last : Int) (f : Nat) (hf : f = 200 ∨ f = 110)
    (hlt : first < last) :
    autoStep f = round ((1000000000 : ℚ) / (f : ℚ)) ∧
    (npArange first last (autoStep f)).head? = some first ∧
    (∀ i : Nat, ∀ h : i + 1 < (npArange first last (autoStep f)).length,
      (npArange first last (autoStep f))[i + 1] - (npArange first last (autoStep f))[i] =
        round ((1000000000 : ℚ) / (f : ℚ))) ∧
    (∀ y ∈ npArange first last (autoStep f), y < last) ∧
    (∀ y : Int, (npArange first last (autoStep f)).getLast? = some y → y < last) := by
  have hstep : autoStep f = round ((1000000000 : ℚ) / (f : ℚ)) := by
    rcases hf with rfl | rfl
    · norm_num [autoStep, round_eq]
    · norm_num [autoStep, round_eq]
  have hpos : 0 < autoStep f := by
    rcases hf with rfl | rfl <;> decide
  have hmem : ∀ y ∈ npArange first last (autoStep f), y < last := by
    intro y hy
    rw [List.mem_iff_getElem] at hy
    obtain ⟨i, hi, hval⟩ := hy
    rw [npArange_getElem first last (autoStep f) hpos hlt i hi] at hval
    rw [npArange_length first last (autoStep f) hpos hlt] at hi
    rcases hf with rfl | rfl
    · have hs : autoStep 200 = 5000000 := by decide
      have ht : ((5000000 : Int)).toNat = 5000000 := rfl
      rw [hs] at hval hi
      rw [ht] at hi
      omega
    · have hs : autoStep 110 = 9090909 := by decide
      have ht : ((9090909 : Int)).toNat = 9090909 := rfl
      rw [hs] at hval hi
      rw [ht] at hi
      omega
  refine ⟨hstep, ?_, ?_, hmem, ?_⟩
  · have hlen : 0 < (npArange first last (autoStep f)).length := by
      rw [npArange_length first last (autoStep f) hpos hlt]
      rcases hf with rfl | rfl
      · have hs : autoStep 200 = 5000000 := by decide
        have ht : ((5000000 : Int)).toNat = 5000000 := rfl
        rw [hs, ht]
        omega
      · have hs : autoStep 110 = 9090909 := by decide
        have ht : ((9090909 : Int)).toNat = 9090909 := rfl
        rw [hs, ht]
        omega
    rw [List.head?_eq_getElem?, List.getElem?_eq_getElem hlen,
      npArange_getElem first last (autoStep f) hpos hlt 0 hlen]
    simp
  · intro i h
    rw [← hstep, npArange_getElem first last (autoStep f) hpos hlt (i + 1) h,
      npArange_getElem first last (autoStep f) hpos hlt i (by omega)]
    push_cast
    ring
  · intro y hy
    exact hmem y (List.mem_of_mem_getLast? (by simp [hy]))

theorem auto_grid_spec_witness :
    autoStep 200 = round ((1000000000 : ℚ) / ((200 : ℕ) : ℚ)) ∧
    (npArange 0 20000000 (autoStep 200)).head? = some 0 ∧
    (∀ i : Nat, ∀ h : i + 1 < (npArange 0 20000000 (autoStep 200)).length,
      (npArange 0 20000000 (autoStep 200))[i + 1] - (npArange 0 20000000 (autoStep 200))[i] =
        round ((1000000000 : ℚ) / ((200 : ℕ) : ℚ))) ∧
    (∀ y ∈ npArange 0 20000000 (autoStep 200), y < 20000000) ∧
    (∀ y : Int, (npArange 0 20000000 (autoStep 200)).getLast? = some y → y < 20000000) :=
  auto_grid_spec 0 20000000 200 (Or.inl rfl) (by decide)

theorem chain_head_lt (b : Int × ℚ) (l : Table)
    (h : List.Chain' (fun p q => p.1 < q.1) (b :: l)) :
    ∀ p ∈ l, b.1 < p.1 := by
  induction l generalizing b with
  | nil => intro p hp; simp at hp
  | cons c rest ih =>
    intro p hp
    rw [List.chain'_cons] at h
    rcases List.mem_cons.mp hp with rfl | hp2
    · exact h.1
    · exact lt_trans h.1 (ih c h.2 p hp2)

theorem interpLinear_self : ∀ (tbl : Table),
    List.Chain' (fun p q => p.1 < q.1) tbl →
    ∀ t v, (t, v) ∈ tbl → interpLinear tbl t = .ok v
  | [] => by
    intro _ t v hmem
    simp at hmem
  | [(t0, v0)] => by
    intro _ t v hmem
    simp at hmem
    obtain ⟨rfl, rfl⟩ := hmem
    simp [interpLinear]
  | (t0, v0) :: (t1, v1) :: rest => by
    intro hs t v hmem
    rw [List.chain'_cons] at hs
    obtain ⟨h01, hs2⟩ := hs
    rcases List.mem_cons.mp hmem with heq | hmem2
    · injection heq with ht hv
      subst ht
      subst hv
      simp only [interpLinear]
      rw [if_neg (lt_irrefl t), if_pos (le_of_lt h01)]
      norm_num
    · rcases List.mem_cons.mp hmem2 with heq1 | hmem3
      · injection heq1 with ht hv
        subst ht
        subst hv
        simp only [interpLinear]
        rw [if_neg (not_lt.mpr (le_of_lt h01)), if_pos (le_refl t)]
        have hne : ((t - t0 : Int) : ℚ) ≠ 0 := by
          exact_mod_cast sub_ne_zero.mpr (ne_of_gt h01)
        rw [div_self hne]
        simp only [Except.ok.injEq]
        ring
      · have ht1t : t1 < (t, v).1 := chain_head_lt (t1, v1) rest hs2 (t, v) hmem3
        simp only [interpLinear]
        rw [if_neg (not_lt.mpr (le_of_lt (lt_trans h01 ht1t))),
          if_neg (not_le.mpr ht1t)]
        exact interpLinear_self ((t1, v1) :: rest) hs2 t v hmem2

theorem interpolate_self_aux (tbl : Table)
    (hs : List.Chain' (fun p q => p.1 < q.1) tbl) :
    ∀ l : Table, (∀ p ∈ l, p ∈ tbl) → interpRows tbl (l.map Prod.fst) = .ok l := by
  intro l
  induction l with
  | nil => intro _; rfl
  | cons p rest ih =>
    intro hsub
    have hp : p ∈ tbl := hsub p (List.mem_cons_self p rest)
    have hlin : interpLinear tbl p.1 = .ok p.2 :=
      interpLinear_self tbl hs p.1 p.2 (by simpa using hp)
    have ih2 := ih (fun q hq => hsub q (List.mem_cons_of_mem p hq))
    simp [List.map_cons, interpRows, hlin, ih2]

/-- C4: resampling at the source table's own timestamps reproduces the
float column exactly under linear interpolation; in particular for
timestamps [0, 10, 20] with float column [1.0, 3.0, 5.0],
interpolate([0, 5, 10, 15, 20]) yields [1.0, 2.0, 3.0, 4.0, 5.0]. -/
theorem interpolate_at_own_timestamps (tbl : Table)
    (hs : List.Chain' (fun p q => p.1 < q.1) tbl) (h2 : 2 ≤ tbl.length) :
    interpolate (tbl.map Prod.fst) tbl = .ok tbl ∧
    interpolate [0, 5, 10, 15, 20] [(0, 1), (10, 3), (20, 5)] =
      .ok [(0, 1), (5, 2), (10, 3), (15, 4), (20, 5)] := by
  constructor
  · rw [interpolate, if_neg (by omega)]
    exact interpolate_self_aux tbl hs tbl (fun p hp => hp)
  · norm_num [interpolate, interpRows, interpLinear]

theorem interpolate_at_own_timestamps_witness :
    interpolate ([((0 : Int), (1 : ℚ)), (10, 3), (20, 5)].map Prod.fst)
        [(0, 1), (10, 3), (20, 5)] = .ok [(0, 1), (10, 3), (20, 5)] ∧
    interpolate [0, 5, 10, 15, 20] [(0, 1), (10, 3), (20, 5)] =
      .ok [(0, 1), (5, 2), (10, 3), (15, 4), (20, 5)] :=
  interpolate_at_own_timestamps [(0, 1), (10, 3), (20, 5)]
    (by simp [List.chain'_cons]) (by decide)

theorem lerp_between (v0 v1 c d : ℚ) (hd : 0 < d) (hc0 : 0 ≤ c) (hcd : c ≤ d) :
    min v0 v1 ≤ v0 + (v1 - v0) * (c / d) ∧ v0 + (v1 - v0) * (c / d) ≤ max v0 v1 := by
  have ht0 : 0 ≤ c / d := div_nonneg hc0 (le_of_lt hd)
  have ht1 : c / d ≤ 1 := (div_le_one hd).mpr hcd
  rcases le_total v0 v1 with h | h
  · rw [min_eq_left h, max_eq_right h]
    constructor
    · nlinarith
    · nlinarith
  · rw [min_eq_right h, max_eq_left h]
    constructor
    · nlinarith
    · nlinarith

theorem interpRows_ok_mem (tbl : Table) :
    ∀ (ts : List Int) (out : Table), interpRows tbl ts = .ok out →
      ∀ p ∈ out, p.1 ∈ ts ∧ interpLinear tbl p.1 = .ok p.2 := by
  intro ts
  induction ts with
  | nil =>
    intro out h p hp
    simp only [interpRows, Except.ok.injEq] at h
    rw [← h] at hp
    simp at hp
  | cons t rest ih =>
    intro out h p hp
    cases hlin : interpLinear tbl t with
    | error e => simp [interpRows, hlin] at h
    | ok v =>
      cases hrest : interpRows tbl rest with
      | error e => simp [interpRows, hlin, hrest] at h
      | ok out2 =>
        simp only [interpRows, hlin, hrest, Except.ok.injEq] at h
        rw [← h] at hp
        rcases List.mem_cons.mp hp with rfl | hp2
        · exact ⟨List.mem_cons_self t rest, by simpa using hlin⟩
        · obtain ⟨hin, hok⟩ := ih out2 hrest p hp2
          exact ⟨List.mem_cons_of_mem t hin, hok⟩

theorem interpLinear_bracket : ∀ (tbl : Table),
    List.Chain' (fun p q => p.1 < q.1) tbl →
    ∀ t v, interpLinear tbl t = .ok v →
    (∃ a b, IsBracket tbl a b ∧ a.1 ≤ t ∧ t ≤ b.1 ∧
      min a.2 b.2 ≤ v ∧ v ≤ max a.2 b.2) ∨ tbl = [(t, v)]
  | [] => by
    intro _ t v h
    simp [interpLinear] at h
  | [(t0, v0)] => by
    intro _ t v h
    simp only [interpLinear] at h
    by_cases ht : t = t0
    · rw [if_pos ht] at h
      injection h with hv
      right
      rw [ht, hv]
    · rw [if_neg ht] at h
      exact absurd h (by simp)
  | (t0, v0) :: (t1, v1) :: rest => by
    intro hs t v h
    rw [List.chain'_cons] at hs
    obtain ⟨h01, hs2⟩ := hs
    simp only [interpLinear] at h
    by_cases h0 : t < t0
    · rw [if_pos h0] at h
      exact absurd h (by simp)
    · rw [if_neg h0] at h
      by_cases h1 : t ≤ t1
      · rw [if_pos h1] at h
        injection h with hv
        left
        have hd : (0 : ℚ) < ((t1 - t0 : Int) : ℚ) := by
          exact_mod_cast sub_pos.mpr h01
        have hc0 : (0 : ℚ) ≤ ((t - t0 : Int) : ℚ) := by
          exact_mod_cast sub_nonneg.mpr (not_lt.mp h0)
        have hcd : ((t - t0 : Int) : ℚ) ≤ ((t1 - t0 : Int) : ℚ) := by
          exact_mod_cast sub_le_sub_right h1 t0
        refine ⟨(t0, v0), (t1, v1), ⟨[], rest, rfl⟩, not_lt.mp h0, h1, ?_, ?_⟩
        · rw [← hv]
          exact (lerp_between v0 v1 _ _ hd hc0 hcd).1
        · rw [← hv]
          exact (lerp_between v0 v1 _ _ hd hc0 hcd).2
      · rw [if_neg h1] at h
        rcases interpLinear_bracket ((t1, v1) :: rest) hs2 t v h with hbr | hsingle
        · obtain ⟨a, b, ⟨l₁, l₂, hsplit⟩, hab⟩ := hbr
          left
          exact ⟨a, b, ⟨(t0, v0) :: l₁, l₂, by rw [hsplit]; rfl⟩, hab⟩
        · exfalso
          injection hsingle with hhead htail
          injection hhead with hts hvs
          exact h1 (le_of_eq hts.symm)

/-- C8: for every valid source table with at least 2 rows and every
monotonic new_timestamps sequence lying within [first_ts, last_ts], each
resampled float value under linear interpolation lies between the minimum
and maximum of the two bracketing original samples (no overshoot). -/
theorem interpolate_no_overshoot (tbl : Table)
    (hs : List.Chain' (fun p q => p.1 < q.1) tbl) (h2 : 2 ≤ tbl.length)
    (newTs : List Int) (hmono : List.Chain' (fun a b => a < b) newTs)
    (hrange : ∀ t ∈ newTs, firstKey tbl ≤ t ∧ t ≤ lastKey tbl)
    (out : Table) (h : interpolate newTs tbl = .ok out) :
    ∀ p ∈ out, ∃ a b, IsBracket tbl a b ∧ a.1 ≤ p.1 ∧ p.1 ≤ b.1 ∧
      min a.2 b.2 ≤ p.2 ∧ p.2 ≤ max a.2 b.2 := by
  intro p hp
  rw [interpolate, if_neg (by omega)] at h
  obtain ⟨-, hlin⟩ := interpRows_ok_mem tbl newTs out h p hp
  rcases interpLinear_bracket tbl hs p.1 p.2 hlin with hbr | hsingle
  · exact hbr
  · rw [hsingle] at h2
    simp at h2

theorem interpolate_no_overshoot_witness :
    ∃ a b, IsBracket [((0 : Int), (1 : ℚ)), (10, 3), (20, 5)] a b ∧
      a.1 ≤ (5 : Int) ∧ (5 : Int) ≤ b.1 ∧
      min a.2 b.2 ≤ (2 : ℚ) ∧ (2 : ℚ) ≤ max a.2 b.2 :=
  interpolate_no_overshoot [(0, 1), (10, 3), (20, 5)] (by simp [List.chain'_cons])
    (by decide) [5, 15] (by simp [List.chain'_cons]) (by decide)
    [(5, 2), (15, 4)] (by norm_num [interpolate, interpRows, interpLinear])
    (5, 2) (by decide)

theorem applyAttrs_ok (ts : List Int) (vals : List ℚ) (freq : Option Nat)
    (s : StreamState) (h : applyAttrs ts vals freq = .ok s) :
    computeAttrs ts = .ok s.attrs ∧ s.dataTs = ts ∧ s.dataVal = vals ∧
    s.timeCol = s.attrs.times ∧ s.sampling_freq_nominal = freq := by
  cases ha : computeAttrs ts with
  | error e => simp [applyAttrs, ha] at h
  | ok a =>
    simp only [applyAttrs, ha] at h
    injection h with h2
    rw [← h2]
    exact ⟨rfl, rfl, rfl, rfl, rfl⟩

/-- C3: a stream with no configured nominal sampling frequency (such as a
CustomStream built from externally supplied data, whose constructor sets
it to None) fails with MissingNominalRate when interpolate is called
without an explicit new_ts. -/
theorem interpolate_missing_rate (s : StreamState)
    (h : s.sampling_freq_nominal = none) :
    streamInterpolate s none = .error .missingNominalRate ∧
    (∀ (ts : List Int) (vals : List ℚ) (s0 : StreamState),
      customStream ts vals = .ok s0 → s0.sampling_freq_nominal = none) := by
  constructor
  · simp [streamInterpolate, h]
  · intro ts vals s0 h0
    exact (applyAttrs_ok ts vals none s0 h0).2.2.2.2

theorem interpolate_missing_rate_witness :
    streamInterpolate exampleCustom none = .error .missingNominalRate ∧
    (∀ (ts : List Int) (vals : List ℚ) (s0 : StreamState),
      customStream ts vals = .ok s0 → s0.sampling_freq_nominal = none) :=
  interpolate_missing_rate exampleCustom rfl

/-- C6: after every successful mutating crop or interpolate, the stream's
derived attributes (timestamps, first_ts, last_ts, times, duration,
sampling_freq_effective) are exactly the ones recomputed from the
replacement table the stream now owns - never stale. -/
theorem attrs_recomputed (s s1 : StreamState)
    (h : (∃ a b u, cropInplace s a b u = .ok s1) ∨
         (∃ nts, interpolateInplace s nts = .ok s1)) :
    computeAttrs s1.dataTs = .ok s1.attrs ∧ s1.timeCol = s1.attrs.times := by
  rcases h with ⟨a, b, u, hc⟩ | ⟨nts, hi⟩
  · cases hcr : crop (s.dataTs.zip s.dataVal) a b u with
    | error e => simp [cropInplace, hcr] at hc
    | ok tbl =>
      simp only [cropInplace, hcr] at hc
      obtain ⟨h1, h2, -, h4, -⟩ := applyAttrs_ok _ _ _ s1 hc
      rw [h2]
      exact ⟨h1, h4⟩
  · cases hsi : streamInterpolate s nts with
    | error e => simp [interpolateInplace, hsi] at hi
    | ok tbl =>
      simp only [interpolateInplace, hsi] at hi
      obtain ⟨h1, h2, -, h4, -⟩ := applyAttrs_ok _ _ _ s1 hi
      rw [h2]
      exact ⟨h1, h4⟩

theorem attrs_recomputed_witness :
    computeAttrs exampleStreamCropped.dataTs = .ok exampleStreamCropped.attrs ∧
    exampleStreamCropped.timeCol = exampleStreamCropped.attrs.times := by
  have hcrop : crop (exampleStream.dataTs.zip exampleStream.dataVal)
      (some 0) (some 10) .timestamp = .ok [(0, 1), (10, 3)] := by decide
  have hc : cropInplace exampleStream (some 0) (some 10) .timestamp =
      .ok exampleStreamCropped := by
    simp only [cropInplace, hcrop, List.map_cons, List.map_nil]
    norm_num [applyAttrs, computeAttrs, exampleStream, exampleStreamCropped]
  exact attrs_recomputed exampleStream exampleStreamCropped
    (Or.inl ⟨some 0, some 10, .timestamp, hc⟩)

/-- C9: a table whose first and last timestamps are equal (in particular
any one-row table) makes the derived-attribute computation divide the row
count by a zero duration and fail, although only zero-row tables are
declared invalid; so a mutating crop down to a single row fails after the
crop itself succeeded. -/
theorem single_row_attrs_fail (s : StreamState) (a b : Option ℚ) (u : CropBy)
    (p : Int × ℚ) (hc : crop (s.dataTs.zip s.dataVal) a b u = .ok [p]) :
    (∀ ts : List Int, ts ≠ [] → ts.headD 0 = ts.getLastD 0 →
      computeAttrs ts = .error .zeroDuration) ∧
    cropInplace s a b u = .error .zeroDuration := by
  have hzero : ∀ ts : List Int, ts ≠ [] → ts.headD 0 = ts.getLastD 0 →
      computeAttrs ts = .error .zeroDuration := by
    intro ts hne heq
    cases ts with
    | nil => exact absurd rfl hne
    | cons t0 rest =>
      have heq2 : rest.getLastD t0 = t0 := by
        have h3 := heq.symm
        simp only [List.getLastD_cons, List.headD_cons] at h3
        exact h3
      apply computeAttrs_zero_duration
      rw [heq2]
      simp
  refine ⟨hzero, ?_⟩
  have h1 : computeAttrs [p.1] = .error .zeroDuration :=
    hzero [p.1] (by simp) (by simp)
  simp only [cropInplace, hc, List.map_cons, List.map_nil]
  simp [applyAttrs, h1]

theorem single_row_attrs_fail_witness :
    (∀ ts : List Int, ts ≠ [] → ts.headD 0 = ts.getLastD 0 →
      computeAttrs ts = .error .zeroDuration) ∧
    cropInplace exampleStream (some 5) (some 15) .timestamp = .error .zeroDuration :=
  single_row_attrs_fail exampleStream (some 5) (some 15) .timestamp (10, 3) (by decide)

theorem applyAttrs_time_col (ts : List Int) (vals : List ℚ) (freq : Option Nat)
    (s1 : StreamState) (h : applyAttrs ts vals freq = .ok s1) :
    s1.timeCol = s1.dataTs.map (fun t => ((t - s1.attrs.first_ts : Int) : ℚ) / 1000000000) ∧
    s1.timeCol.head? = some 0 := by
  obtain ⟨h1, h2, -, h4, -⟩ := applyAttrs_ok ts vals freq s1 h
  cases ts with
  | nil => simp [computeAttrs] at h1
  | cons t0 rest =>
    by_cases hz : ((rest.getLastD t0 - t0 : Int) : ℚ) / 1000000000 = 0
    · rw [computeAttrs_zero_duration t0 rest hz] at h1
      simp at h1
    · rw [computeAttrs_cons t0 rest hz] at h1
      injection h1 with ha
      constructor
      · rw [h4, ← ha, h2]
      · rw [h4, ← ha]
        simp

/-- C10: after construction and after every mutating crop or interpolate,
the owned table's derived "time [s]" column equals
(row timestamp - first_ts) / 1e9 in every row, so its first entry is 0 and
it is recomputed against the new first timestamp on every table
replacement; attribute computation writes into the owned table. -/
theorem time_col_spec (s1 : StreamState)
    (h : (∃ ts vals freq, applyAttrs ts vals freq = .ok s1) ∨
         (∃ s a b u, cropInplace s a b u = .ok s1) ∨
         (∃ s nts, interpolateInplace s nts = .ok s1)) :
    s1.timeCol = s1.dataTs.map (fun t => ((t - s1.attrs.first_ts : Int) : ℚ) / 1000000000) ∧
    s1.timeCol.head? = some 0 := by
  rcases h with ⟨ts, vals, freq, ha⟩ | ⟨s, a, b, u, hc⟩ | ⟨s, nts, hi⟩
  · exact applyAttrs_time_col ts vals freq s1 ha
  · cases hcr : crop (s.dataTs.zip s.dataVal) a b u with
    | error e => simp [cropInplace, hcr] at hc
    | ok tbl =>
      simp only [cropInplace, hcr] at hc
      exact applyAttrs_time_col _ _ _ s1 hc
  · cases hsi : streamInterpolate s nts with
    | error e => simp [interpolateInplace, hsi] at hi
    | ok tbl =>
      simp only [interpolateInplace, hsi] at hi
      exact applyAttrs_time_col _ _ _ s1 hi

theorem time_col_spec_witness :
    exampleCustom.timeCol =
      exampleCustom.dataTs.map
        (fun t => ((t - exampleCustom.attrs.first_ts : Int) : ℚ) / 1000000000) ∧
    exampleCustom.timeCol.head? = some 0 :=
  time_col_spec exampleCustom
    (Or.inl ⟨[0, 10], [1, 3], none,
      by norm_num [applyAttrs, computeAttrs, exampleCustom]⟩)

end PyNeon
